import Mathlib

/-!
Verification of the RAG pipeline script `src/app/open-source/main.py`.

The script is a sequential orchestration over external capabilities (PDF
extraction, embedding, FAISS indexing, retrieval-augmented generation).
We embed it shallowly: external calls are oracles whose outcomes are data
(`Except` values carried by a `DocOracle` / `World`), and the observable
behaviour of a run is a list of events (library calls and printed lines)
together with an exit outcome.
-/

deriving instance DecidableEq for Except

namespace RAG

/-- Python exception, identified by its message text. -/
abbrev PyErr := String

/-- Lexicographic order on character lists by code point, as Python
compares strings. -/
def lexLe : List Char → List Char → Bool
  | [], _ => true
  | _ :: _, [] => false
  | a :: as, b :: bs =>
    if a.toNat < b.toNat then true
    else if b.toNat < a.toNat then false
    else lexLe as bs

/-- Lexicographic order on strings by code point, as Python compares
strings (`list.sort()` sorts into this order). -/
def strLe (a b : String) : Bool := lexLe a.data b.data

/-- Value returned by `rag.invoke(question)` as far as the output step can
observe it: either a Python dict of string entries, or any other value
carried here by its printed representation. -/
inductive PyValue where
  | dict (entries : List (String × String))
  | other (text : String)
deriving DecidableEq

/-- Lookup of a key in a Python dict modelled as an association list
(`"result" in output` / `output["result"]`). -/
def lookupKey : List (String × String) → String → Option String
  | [], _ => none
  | (k, v) :: rest, key => if k = key then some v else lookupKey rest key

/-- Printed representation of a dict of string entries, as `print(output)`
would show it (Python quoting omitted from the model). -/
def pyReprDict (entries : List (String × String)) : String :=
  "\x7b" ++ String.intercalate ", " (entries.map (fun e => e.1 ++ ": " ++ e.2)) ++ "\x7d"

/-- Observable events of a run: calls into external libraries and lines
printed to standard output. `printHeader p` is the printing of the
per-document header line `"\nProcessing File: <p>"` (line 120 of the
source); all other printed lines are `printLine`. -/
inductive Event where
  | loadGenModel (nCtx : Int)
  | callExtract
  | callEmbedLoad
  | callBuildIndex
  | callBuildChain
  | callInvoke
  | printHeader (path : String)
  | printLine (line : String)
deriving DecidableEq

/-- Exit outcome of the process: `sys.exit(n)` / normal return (`code`), or
an uncaught Python exception (`uncaught`), which terminates with a traceback
and a nonzero status that is not produced by `sys.exit(2)`. -/
inductive ExitOutcome where
  | code (n : Nat)
  | uncaught (e : PyErr)
deriving DecidableEq

/-- Result of one whole process run: the event trace and the exit outcome. -/
structure RunResult where
  events : List Event
  exit : ExitOutcome
deriving DecidableEq

/-- File-system oracle: `os.path.exists`, `os.path.isdir`, and `os.walk`
(restricted to the components the script reads: directory path and the
file names it contains, in traversal order). -/
structure FS where
  pathExists : String → Bool
  isdir : String → Bool
  walk : String → List (String × List String)

/-- Outcomes of the external calls made while processing one document. -/
structure DocOracle where
  extract : Except PyErr (List String)
  embedLoad : Except PyErr Unit
  buildIndex : Except PyErr Unit
  buildChain : Except PyErr Unit
  invoke : Except PyErr PyValue
deriving DecidableEq

/-- Whole-run oracle: the file system, the outcome of loading the
generation model (`LlamaCpp`, in `build_llm`), and the per-document
external-call outcomes. -/
structure World where
  fs : FS
  genLoad : Except PyErr Unit
  oracle : String → DocOracle

/-- Environment variables read by the script (each possibly unset). -/
structure Env where
  MODEL_PATH : Option String
  PDF_DIR : Option String
  EMBEDDING_MODEL : Option String
  N_CTX : Option String
  QUESTION : Option String

/-- Command-line flags: `none` means the flag was not passed, so the
argparse default (the environment fallback) applies. The `--n-ctx` flag
value is already an integer (argparse `type=int`). -/
structure Cli where
  model_path : Option String
  pdf_dir : Option String
  embedding_model : Option String
  n_ctx : Option Int
  question : Option String
  verbose : Bool

/-- Parsed configuration (`argparse.Namespace`). -/
structure Args where
  model_path : Option String
  pdf_dir : String
  embedding_model : String
  n_ctx : Int
  question : Option String
  verbose : Bool
deriving DecidableEq

/-- Decimal digit value of a character. -/
def digitVal (c : Char) : Nat := c.toNat - 48

/-- Digit tail of a Python integer literal: digits with single underscores
allowed only between digits. -/
def parseDigits : Nat → List Char → Option Nat
  | acc, [] => some acc
  | acc, c :: rest =>
    if c.isDigit then parseDigits (acc * 10 + digitVal c) rest
    else if c = '_' then
      match rest with
      | c2 :: rest2 => if c2.isDigit then parseDigits (acc * 10 + digitVal c2) rest2 else none
      | [] => none
    else none

/-- Unsigned part of a Python integer literal: at least one digit. -/
def parseUnsigned : List Char → Option Nat
  | [] => none
  | c :: rest => if c.isDigit then parseDigits (digitVal c) rest else none

/-- Signed body of a Python integer literal. -/
def parseIntBody : List Char → Option Int
  | '-' :: rest => (parseUnsigned rest).map (fun n => -(n : Int))
  | '+' :: rest => (parseUnsigned rest).map (fun n => (n : Int))
  | cs => (parseUnsigned cs).map (fun n => (n : Int))

/-- Whitespace stripped by Python `int()` before parsing. -/
def isPySpace (c : Char) : Bool :=
  c == ' ' || c == '\t' || c == '\n' || c == '\r' || c == '\x0b' || c == '\x0c'

/-- Strip leading and trailing whitespace. -/
def pyStripChars (cs : List Char) : List Char :=
  ((cs.dropWhile isPySpace).reverse.dropWhile isPySpace).reverse

/-- Python `int(s)`: parse a base-10 integer literal, raising `ValueError`
on anything else. -/
def pyInt (s : String) : Except PyErr Int :=
  match parseIntBody (pyStripChars s.data) with
  | some n => .ok n
  | none => .error ("invalid literal for int() with base 10: " ++ s)

/-- Model of `parse_args` (lines 25-66). The `--n-ctx` default
`int(os.getenv("N_CTX", "4096"))` is evaluated eagerly while the parser is
being built, so an invalid `N_CTX` raises before any validation, even when
the flag is passed explicitly. -/
def parse_args (env : Env) (cli : Cli) : Except PyErr Args :=
  match pyInt (env.N_CTX.getD "4096") with
  | .error e => .error e
  | .ok nCtxDefault =>
    .ok
      { model_path := cli.model_path.orElse (fun _ => env.MODEL_PATH)
        pdf_dir := cli.pdf_dir.getD (env.PDF_DIR.getD "./pdf")
        embedding_model := cli.embedding_model.getD (env.EMBEDDING_MODEL.getD "BAAI/bge-small-en-v1.5")
        n_ctx := cli.n_ctx.getD nCtxDefault
        question := cli.question.orElse (fun _ => env.QUESTION)
        verbose := cli.verbose }

/-- Python truthiness test `not x` for an optional string: true for `None`
and for the empty string. -/
def falsyStr : Option String → Bool
  | none => true
  | some s => s.data.isEmpty

/-- Model of `os.path.isabs` on POSIX: the path starts with a slash. -/
def isAbsPath (p : String) : Bool :=
  match p.data with
  | '/' :: _ => true
  | _ => false

/-- Model of `validate_inputs` (lines 68-83): `some line` means the given
`ERROR:` line is printed and the process exits with status 2; `none` means
validation passed. -/
def validate_inputs (fs : FS) (model_path : Option String) (pdf_dir : String)
    (question : Option String) : Option String :=
  if falsyStr model_path then
    some "ERROR: --model-path is required (or set MODEL_PATH in .env)"
  else if !isAbsPath (model_path.getD "") then
    some "ERROR: --model-path must be an absolute path to the GGUF file"
  else if !fs.pathExists (model_path.getD "") then
    some ("ERROR: model file not found: " ++ model_path.getD "")
  else if !fs.isdir pdf_dir then
    some ("ERROR: pdf directory not found: " ++ pdf_dir)
  else if falsyStr question then
    some "ERROR: --question is required (or set QUESTION in .env)"
  else none

/-- The fixed prompt template built by `build_prompt` (lines 94-101),
with literal braces written by character code. -/
def promptTemplate : String :=
  "<|user|>\n" ++ "Relevant information:\n\x7bcontext\x7d\n\n" ++
    "Provide a concise answer the following question using the relevant information provided above:\n" ++
    "\x7bquestion\x7d<|end|>\n<|assistant|>"

/-- Python `str.lower`, character by character. -/
def pyLower (s : String) : String := String.mk (s.data.map Char.toLower)

/-- Selection test of the discovery loop: `name.lower().endswith(".pdf")`. -/
def isPdfName (n : String) : Bool := (".pdf".data).isSuffixOf (pyLower n).data

/-- Model of `os.path.join(dirpath, name)` for the names produced by
`os.walk` (relative names; an absolute name replaces the directory). -/
def pathJoin (d n : String) : String :=
  if isAbsPath n then n
  else if d.data.isEmpty then n
  else if d.data.getLast? = some '/' then d ++ n
  else d ++ "/" ++ n

/-- The PDF paths accumulated by the `os.walk` loop (lines 153-157), in
traversal order, before sorting. -/
def walkPdfPaths (entries : List (String × List String)) : List String :=
  entries.flatMap (fun e => (e.2.filter isPdfName).map (pathJoin e.1))

/-- Document discovery (lines 153-158): walk the directory, keep names
ending case-insensitively in `.pdf`, join them to their directory, and
sort the resulting paths (Python `list.sort()` on strings is the
lexicographic order by code point; any sort into that order agrees with it
since string order is antisymmetric). -/
def discoverPdfs (fs : FS) (root : String) : List String :=
  List.insertionSort (fun a b => strLe a b = true) (walkPdfPaths (fs.walk root))

/-- The line printed for the final RAG output (lines 138-142): a dict with
a `"result"` key prints that entry, anything else prints its
representation. -/
def outputLine : PyValue → String
  | .dict es =>
    match lookupKey es "result" with
    | some r => r
    | none => pyReprDict es
  | .other t => t

/-- The `try` body of `run_rag_over_pdf` (lines 121-142): the events it
produces, and the exception that escapes it, if any. The skip notice is
printed when extraction yields no chunks, before any embedding call. -/
def ragTry (o : DocOracle) : List Event × Option PyErr :=
  match o.extract with
  | .error e => ([.callExtract], some e)
  | .ok chunks =>
    if chunks.isEmpty then
      ([.callExtract, .printLine "No text extracted; skipping."], none)
    else
      match o.embedLoad with
      | .error e => ([.callExtract, .callEmbedLoad], some e)
      | .ok _ =>
        match o.buildIndex with
        | .error e => ([.callExtract, .callEmbedLoad, .callBuildIndex], some e)
        | .ok _ =>
          match o.buildChain with
          | .error e => ([.callExtract, .callEmbedLoad, .callBuildIndex, .callBuildChain], some e)
          | .ok _ =>
            match o.invoke with
            | .error e =>
              ([.callExtract, .callEmbedLoad, .callBuildIndex, .callBuildChain, .callInvoke], some e)
            | .ok v =>
              ([.callExtract, .callEmbedLoad, .callBuildIndex, .callBuildChain, .callInvoke,
                .printLine (outputLine v)], none)

/-- The one-line failure message of the per-document handler (line 143). -/
def failLine (path e : String) : String := "Failed to process " ++ path ++ ": " ++ e

/-- Model of `run_rag_over_pdf` (lines 112-143): print the header, run the
try body, and on an exception print the one-line failure message and
return normally. -/
def run_rag_over_pdf (pdf_path : String) (o : DocOracle) : List Event :=
  Event.printHeader pdf_path ::
    ((ragTry o).1 ++
      (match (ragTry o).2 with
       | some e => [Event.printLine (failLine pdf_path e)]
       | none => []))

/-- The notice printed when discovery finds nothing (line 160). -/
def noPdfsLine (dir : String) : String := "No PDFs found in " ++ dir

/-- Model of `main` (lines 146-173): parse, validate, load the generation
model, discover PDFs, and either report emptiness or run the per-document
pipeline over every discovered path in order. -/
def main (env : Env) (cli : Cli) (w : World) : RunResult :=
  match parse_args env cli with
  | .error e => ⟨[], .uncaught e⟩
  | .ok args =>
    match validate_inputs w.fs args.model_path args.pdf_dir args.question with
    | some errLine => ⟨[.printLine errLine], .code 2⟩
    | none =>
      match w.genLoad with
      | .error e => ⟨[.loadGenModel args.n_ctx], .uncaught e⟩
      | .ok _ =>
        let pdfPaths := discoverPdfs w.fs args.pdf_dir
        if pdfPaths.isEmpty then
          ⟨[.loadGenModel args.n_ctx, .printLine (noPdfsLine args.pdf_dir)], .code 0⟩
        else
          ⟨Event.loadGenModel args.n_ctx :: pdfPaths.flatMap (fun p => run_rag_over_pdf p (w.oracle p)),
            .code 0⟩

/-- Raw character cuts with overlap, on fuel (the fuel is instantiated
with the length of the input, which always suffices): a text longer than
`size` is cut into a `size`-character chunk followed by the cuts of the
text restarted `size - overlap` characters further on. -/
def charCutsFuel (size overlap : Nat) : Nat → List Char → List (List Char)
  | 0, cs => [cs]
  | fuel + 1, cs =>
    if size = 0 ∨ size ≤ overlap ∨ cs.length ≤ size then [cs]
    else cs.take size :: charCutsFuel size overlap fuel (cs.drop (size - overlap))

/-- Raw character cuts with overlap. -/
def charCuts (size overlap : Nat) (cs : List Char) : List (List Char) :=
  charCutsFuel size overlap cs.length cs

/-- Modelled from the spec: the boundary separators of langchain's
`RecursiveCharacterTextSplitter` (library code, not in `src/`), tried in
preference order - paragraph break, line break, word break - before the
raw character-cut fallback. -/
def boundarySeparators : List String := ["\n\n", "\n", " "]

/-- Splitting of a character list at every occurrence of a nonempty
separator, on fuel (instantiated with the length of the input, which
always suffices). -/
def splitOnFuel (sep : List Char) : Nat → List Char → List (List Char)
  | _, [] => [[]]
  | 0, cs => [cs]
  | fuel + 1, c :: cs =>
    if sep.isPrefixOf (c :: cs) then
      [] :: splitOnFuel sep fuel ((c :: cs).drop sep.length)
    else
      match splitOnFuel sep fuel cs with
      | [] => [[c]]
      | h :: t => (c :: h) :: t

/-- Splitting of a string at every occurrence of a separator. -/
def splitOnSep (sep s : String) : List String :=
  (splitOnFuel sep.data s.data.length s.data).map List.asString

/-- Modelled from the spec: langchain's `RecursiveCharacterTextSplitter`
(library code, not in `src/`). Text is split preferentially at the first
separator that occurs in it; pieces still longer than `size` are split at
the next separator, and when no separator remains the raw character cuts
with `overlap` apply. -/
def splitBoundary (size overlap : Nat) : List String → String → List String
  | [], s => (charCuts size overlap s.data).map List.asString
  | sep :: rest, s =>
    if s.data.length ≤ size then [s]
    else
      let pieces := splitOnSep sep s
      if pieces.length ≤ 1 then splitBoundary size overlap rest s
      else
        pieces.flatMap (fun piece =>
          if piece.data.length ≤ size then [piece] else splitBoundary size overlap rest piece)

/-- Model of `extract_text_chunks_from_pdf` (lines 104-109) on the
page-level segments returned by `loader.load_and_split()`: every segment
is split by the recursive splitter with `chunk_size=500` and
`chunk_overlap=200`, and the chunks are concatenated in order. -/
def extract_text_chunks_from_pdf (pages : List String) : List String :=
  pages.flatMap (splitBoundary 500 200 boundarySeparators)

/-! ## Order facts for the lexicographic comparison -/

theorem lexLe_total : ∀ x y : List Char, lexLe x y = true ∨ lexLe y x = true
  | [], _ => Or.inl rfl
  | _ :: _, [] => Or.inr rfl
  | a :: as, b :: bs => by
    rcases Nat.lt_trichotomy a.toNat b.toNat with h | h | h
    · left; simp [lexLe, h]
    · have h2 : ¬ a.toNat < b.toNat := by omega
      have h3 : ¬ b.toNat < a.toNat := by omega
      rcases lexLe_total as bs with ih | ih
      · left; simp [lexLe, h2, h3, ih]
      · right; simp [lexLe, h2, h3, ih]
    · right; simp [lexLe, h]

theorem lexLe_trans : ∀ x y z : List Char,
    lexLe x y = true → lexLe y z = true → lexLe x z = true
  | [], _, _, _, _ => rfl
  | _ :: _, [], _, h1, _ => by simp [lexLe] at h1
  | _ :: _, _ :: _, [], _, h2 => by simp [lexLe] at h2
  | a :: as, b :: bs, c :: cs, h1, h2 => by
    rcases Nat.lt_trichotomy a.toNat b.toNat with hab | hab | hab
    · rcases Nat.lt_trichotomy b.toNat c.toNat with hbc | hbc | hbc
      · simp [lexLe, show a.toNat < c.toNat by omega]
      · simp [lexLe, show a.toNat < c.toNat by omega]
      · simp [lexLe, show ¬ b.toNat < c.toNat by omega, hbc] at h2
    · rcases Nat.lt_trichotomy b.toNat c.toNat with hbc | hbc | hbc
      · simp [lexLe, show a.toNat < c.toNat by omega]
      · have h1' : lexLe as bs = true := by
          simpa [lexLe, show ¬ a.toNat < b.toNat by omega,
            show ¬ b.toNat < a.toNat by omega] using h1
        have h2' : lexLe bs cs = true := by
          simpa [lexLe, show ¬ b.toNat < c.toNat by omega,
            show ¬ c.toNat < b.toNat by omega] using h2
        simp [lexLe, show ¬ a.toNat < c.toNat by omega, show ¬ c.toNat < a.toNat by omega,
          lexLe_trans as bs cs h1' h2']
      · simp [lexLe, show ¬ b.toNat < c.toNat by omega, hbc] at h2
    · simp [lexLe, show ¬ a.toNat < b.toNat by omega, hab] at h1

instance : IsTotal String fun a b => strLe a b = true :=
  ⟨fun a b => lexLe_total a.data b.data⟩

instance : IsTrans String fun a b => strLe a b = true :=
  ⟨fun a b c => lexLe_trans a.data b.data c.data⟩

/-! ## The `ERROR:` prefix of validation messages -/

/-- A printed line that begins with the six characters `ERROR:`. -/
def errorPrefixed (line : String) : Prop := line.data.take 6 = "ERROR:".data

theorem errorPrefixed_append (pre suf : String) (h : pre.data.take 6 = "ERROR:".data)
    (hlen : 6 ≤ pre.data.length) : errorPrefixed (pre ++ suf) := by
  unfold errorPrefixed
  rw [String.data_append, List.take_append_of_le_length hlen, h]

theorem validate_inputs_error {fs : FS} {mp : Option String} {dir : String}
    {q : Option String} {line : String}
    (h : validate_inputs fs mp dir q = some line) : errorPrefixed line := by
  unfold validate_inputs at h
  split_ifs at h <;> (try cases h) <;>
    first
      | (unfold errorPrefixed; decide)
      | exact errorPrefixed_append _ _ (by decide) (by decide)

theorem validate_inputs_none_iff (fs : FS) (mp : Option String) (dir : String)
    (q : Option String) :
    validate_inputs fs mp dir q = none ↔
      falsyStr mp = false ∧ isAbsPath (mp.getD "") = true ∧
      fs.pathExists (mp.getD "") = true ∧ fs.isdir dir = true ∧ falsyStr q = false := by
  unfold validate_inputs
  split_ifs <;> simp_all

/-! ## Unfolding equations for `main` -/

theorem main_parse_error {env : Env} {cli : Cli} {w : World} {e : PyErr}
    (h : parse_args env cli = .error e) : main env cli w = ⟨[], .uncaught e⟩ := by
  simp [main, h]

theorem main_validate_some {env : Env} {cli : Cli} {w : World} {args : Args} {line : String}
    (hp : parse_args env cli = .ok args)
    (hv : validate_inputs w.fs args.model_path args.pdf_dir args.question = some line) :
    main env cli w = ⟨[Event.printLine line], .code 2⟩ := by
  simp [main, hp, hv]

theorem main_genLoad_error {env : Env} {cli : Cli} {w : World} {args : Args} {e : PyErr}
    (hp : parse_args env cli = .ok args)
    (hv : validate_inputs w.fs args.model_path args.pdf_dir args.question = none)
    (hg : w.genLoad = .error e) :
    main env cli w = ⟨[Event.loadGenModel args.n_ctx], .uncaught e⟩ := by
  simp [main, hp, hv, hg]

theorem main_run {env : Env} {cli : Cli} {w : World} {args : Args}
    (hp : parse_args env cli = .ok args)
    (hv : validate_inputs w.fs args.model_path args.pdf_dir args.question = none)
    (hg : w.genLoad = .ok ()) :
    main env cli w =
      if (discoverPdfs w.fs args.pdf_dir).isEmpty then
        ⟨[Event.loadGenModel args.n_ctx, Event.printLine (noPdfsLine args.pdf_dir)], .code 0⟩
      else
        ⟨Event.loadGenModel args.n_ctx ::
          (discoverPdfs w.fs args.pdf_dir).flatMap (fun p => run_rag_over_pdf p (w.oracle p)),
          .code 0⟩ := by
  simp only [main, hp, hv, hg]

/-! ## Shape of the per-document event trace -/

/-- The path carried by a header event, if the event is one. -/
def headerPath : Event → Option String
  | .printHeader p => some p
  | _ => none

theorem ragTry_cases (o : DocOracle) :
    (∃ e, o.extract = .error e ∧ ragTry o = ([.callExtract], some e)) ∨
    (∃ chunks, o.extract = .ok chunks ∧ chunks.isEmpty = true ∧
      ragTry o = ([.callExtract, .printLine "No text extracted; skipping."], none)) ∨
    (∃ chunks e, o.extract = .ok chunks ∧ chunks.isEmpty = false ∧ o.embedLoad = .error e ∧
      ragTry o = ([.callExtract, .callEmbedLoad], some e)) ∨
    (∃ chunks e, o.extract = .ok chunks ∧ chunks.isEmpty = false ∧ o.embedLoad = .ok () ∧
      o.buildIndex = .error e ∧
      ragTry o = ([.callExtract, .callEmbedLoad, .callBuildIndex], some e)) ∨
    (∃ chunks e, o.extract = .ok chunks ∧ chunks.isEmpty = false ∧ o.embedLoad = .ok () ∧
      o.buildIndex = .ok () ∧ o.buildChain = .error e ∧
      ragTry o = ([.callExtract, .callEmbedLoad, .callBuildIndex, .callBuildChain], some e)) ∨
    (∃ chunks e, o.extract = .ok chunks ∧ chunks.isEmpty = false ∧ o.embedLoad = .ok () ∧
      o.buildIndex = .ok () ∧ o.buildChain = .ok () ∧ o.invoke = .error e ∧
      ragTry o = ([.callExtract, .callEmbedLoad, .callBuildIndex, .callBuildChain, .callInvoke],
        some e)) ∨
    (∃ chunks v, o.extract = .ok chunks ∧ chunks.isEmpty = false ∧ o.embedLoad = .ok () ∧
      o.buildIndex = .ok () ∧ o.buildChain = .ok () ∧ o.invoke = .ok v ∧
      ragTry o = ([.callExtract, .callEmbedLoad, .callBuildIndex, .callBuildChain, .callInvoke,
        .printLine (outputLine v)], none)) := by
  rcases o with ⟨ex, em, bi, bc, iv⟩
  cases ex with
  | error e => exact Or.inl ⟨e, rfl, rfl⟩
  | ok chunks =>
    cases hc : chunks.isEmpty with
    | true => exact Or.inr (Or.inl ⟨chunks, rfl, hc, by simp [ragTry, hc]⟩)
    | false =>
      cases em with
      | error e =>
        exact Or.inr (Or.inr (Or.inl ⟨chunks, e, rfl, hc, rfl, by simp [ragTry, hc]⟩))
      | ok u =>
        cases u
        cases bi with
        | error e =>
          exact Or.inr (Or.inr (Or.inr (Or.inl
            ⟨chunks, e, rfl, hc, rfl, rfl, by simp [ragTry, hc]⟩)))
        | ok u =>
          cases u
          cases bc with
          | error e =>
            exact Or.inr (Or.inr (Or.inr (Or.inr (Or.inl
              ⟨chunks, e, rfl, hc, rfl, rfl, rfl, by simp [ragTry, hc]⟩))))
          | ok u =>
            cases u
            cases iv with
            | error e =>
              exact Or.inr (Or.inr (Or.inr (Or.inr (Or.inr (Or.inl
                ⟨chunks, e, rfl, hc, rfl, rfl, rfl, rfl, by simp [ragTry, hc]⟩)))))
            | ok v =>
              exact Or.inr (Or.inr (Or.inr (Or.inr (Or.inr (Or.inr
                ⟨chunks, v, rfl, hc, rfl, rfl, rfl, rfl, by simp [ragTry, hc]⟩)))))

theorem ragTry_events_mem (o : DocOracle) :
    ∀ ev ∈ (ragTry o).1,
      ev = Event.callExtract ∨ ev = Event.callEmbedLoad ∨ ev = Event.callBuildIndex ∨
        ev = Event.callBuildChain ∨ ev = Event.callInvoke ∨ ∃ s, ev = Event.printLine s := by
  intro ev hev
  rcases ragTry_cases o with ⟨e, _, hr⟩ | ⟨c, _, _, hr⟩ | ⟨c, e, _, _, _, hr⟩ |
    ⟨c, e, _, _, _, _, hr⟩ | ⟨c, e, _, _, _, _, _, hr⟩ | ⟨c, e, _, _, _, _, _, _, hr⟩ |
    ⟨c, v, _, _, _, _, _, _, hr⟩ <;>
    rw [hr] at hev <;> simp at hev <;>
    rcases hev with rfl | rfl | rfl | rfl | rfl | rfl <;> simp

theorem ragTry_error_no_print {o : DocOracle} {e : PyErr} (h : (ragTry o).2 = some e) :
    ∀ s, Event.printLine s ∉ (ragTry o).1 := by
  intro s hmem
  rcases ragTry_cases o with ⟨e', _, hr⟩ | ⟨c, _, _, hr⟩ | ⟨c, e', _, _, _, hr⟩ |
    ⟨c, e', _, _, _, _, hr⟩ | ⟨c, e', _, _, _, _, _, hr⟩ | ⟨c, e', _, _, _, _, _, _, hr⟩ |
    ⟨c, v, _, _, _, _, _, _, hr⟩ <;>
    rw [hr] at h hmem <;> simp at h hmem

theorem ragTry_headerPath_none (o : DocOracle) :
    ∀ ev ∈ (ragTry o).1, headerPath ev = none := by
  intro ev hev
  rcases ragTry_events_mem o ev hev with rfl | rfl | rfl | rfl | rfl | ⟨s, rfl⟩ <;> rfl

theorem run_rag_events_mem (p : String) (o : DocOracle) :
    ∀ ev ∈ run_rag_over_pdf p o,
      ev = Event.printHeader p ∨ (∃ s, ev = Event.printLine s) ∨ ev = Event.callExtract ∨
        ev = Event.callEmbedLoad ∨ ev = Event.callBuildIndex ∨ ev = Event.callBuildChain ∨
        ev = Event.callInvoke := by
  intro ev hev
  unfold run_rag_over_pdf at hev
  rcases List.mem_cons.mp hev with rfl | hev
  · exact Or.inl rfl
  · rcases List.mem_append.mp hev with h | h
    · rcases ragTry_events_mem o ev h with rfl | rfl | rfl | rfl | rfl | ⟨s, rfl⟩ <;> simp
    · cases hm : (ragTry o).2 with
      | none => rw [hm] at h; simp at h
      | some e => rw [hm] at h; simp at h; subst h; exact Or.inr (Or.inl ⟨_, rfl⟩)

theorem run_rag_filterMap_header (p : String) (o : DocOracle) :
    (run_rag_over_pdf p o).filterMap headerPath = [p] := by
  unfold run_rag_over_pdf
  rw [List.filterMap_cons, List.filterMap_append]
  have h1 : (ragTry o).1.filterMap headerPath = [] :=
    List.filterMap_eq_nil_iff.mpr (ragTry_headerPath_none o)
  cases hm : (ragTry o).2 <;> simp [h1, headerPath]

theorem loop_filterMap_header (w : World) (l : List String) :
    (l.flatMap (fun p => run_rag_over_pdf p (w.oracle p))).filterMap headerPath = l := by
  induction l with
  | nil => rfl
  | cons p t ih =>
    simp only [List.flatMap_cons, List.filterMap_append, run_rag_filterMap_header, ih]
    rfl

theorem header_mem_loop {w : World} {l : List String} {q : String} (hq : q ∈ l) :
    Event.printHeader q ∈ l.flatMap (fun p => run_rag_over_pdf p (w.oracle p)) :=
  List.mem_flatMap.mpr ⟨q, hq, by unfold run_rag_over_pdf; exact List.mem_cons_self _ _⟩

theorem loop_no_loadGen (w : World) (l : List String) (n : Int) :
    Event.loadGenModel n ∉ l.flatMap (fun p => run_rag_over_pdf p (w.oracle p)) := by
  intro hmem
  rcases List.mem_flatMap.mp hmem with ⟨p, _, hin⟩
  have := run_rag_events_mem p (w.oracle p) _ hin
  simp at this

theorem run_rag_count_fail {o : DocOracle} {e : PyErr} (p : String)
    (h : (ragTry o).2 = some e) :
    List.count (Event.printLine (failLine p e)) (run_rag_over_pdf p o) = 1 := by
  unfold run_rag_over_pdf
  rw [h, List.count_cons, List.count_append]
  have h0 : List.count (Event.printLine (failLine p e)) (ragTry o).1 = 0 :=
    List.count_eq_zero.mpr (ragTry_error_no_print h (failLine p e))
  simp [h0]

/-! ## Discovery lemmas -/

theorem discoverPdfs_sorted (fs : FS) (root : String) :
    List.Pairwise (fun a b => strLe a b = true) (discoverPdfs fs root) :=
  List.sorted_insertionSort _ _

theorem mem_discoverPdfs {fs : FS} {root p : String} :
    p ∈ discoverPdfs fs root ↔
      ∃ d ns, (d, ns) ∈ fs.walk root ∧ ∃ n, n ∈ ns ∧ isPdfName n = true ∧ p = pathJoin d n := by
  unfold discoverPdfs walkPdfPaths
  rw [(List.perm_insertionSort _ _).mem_iff]
  simp only [List.mem_flatMap, List.mem_map, List.mem_filter]
  constructor
  · rintro ⟨⟨d, ns⟩, hw, n, ⟨hn, hpdf⟩, rfl⟩
    exact ⟨d, ns, hw, n, hn, hpdf, rfl⟩
  · rintro ⟨d, ns, hw, n, hn, hpdf, rfl⟩
    exact ⟨⟨d, ns⟩, hw, n, ⟨hn, hpdf⟩, rfl⟩

/-! ## Concrete demonstration fixtures -/

/-- File system with two PDFs and one other file under `./pdf`. -/
def demoFS : FS :=
  ⟨fun p => p == "/model.gguf", fun d => d == "./pdf",
    fun _ => [("./pdf", ["b.pdf", "a.pdf", "notes.txt"])]⟩

/-- File system whose directory holds no PDF files. -/
def emptyFS : FS :=
  ⟨fun p => p == "/model.gguf", fun d => d == "./pdf", fun _ => [("./pdf", ["notes.txt"])]⟩

/-- Environment with a model path and a question set. -/
def demoEnv : Env := ⟨some "/model.gguf", none, none, none, some "What is the topic"⟩

/-- Environment with nothing set. -/
def badEnv : Env := ⟨none, none, none, none, none⟩

/-- Environment that sets `N_CTX` to `0`. -/
def zeroCtxEnv : Env :=
  ⟨some "/model.gguf", none, none, some "0", some "What is the topic"⟩

/-- Environment that sets `N_CTX` to a non-integer string. -/
def badCtxEnv : Env :=
  ⟨some "/model.gguf", none, none, some "not a number", some "What is the topic"⟩

/-- Command line with no flags passed. -/
def emptyCli : Cli := ⟨none, none, none, none, none, false⟩

/-- Command line passing `--n-ctx -7`. -/
def negCtxCli : Cli := ⟨none, none, none, some (-7), none, false⟩

/-- Oracle for a document whose whole pipeline succeeds. -/
def okOracle : DocOracle :=
  ⟨.ok ["chunk one"], .ok (), .ok (), .ok (),
    .ok (.dict [("query", "q"), ("result", "the answer")])⟩

/-- Oracle for a document whose extraction raises. -/
def extractFailOracle : DocOracle :=
  ⟨.error "bad pdf", .ok (), .ok (), .ok (), .ok (.other "x")⟩

/-- Oracle for a document whose embedding-model load raises. -/
def embedFailOracle : DocOracle :=
  ⟨.ok ["c"], .error "embed load failed", .ok (), .ok (), .ok (.other "x")⟩

/-- Oracle for a document whose extraction yields no chunks. -/
def emptyExtractOracle : DocOracle :=
  ⟨.ok [], .ok (), .ok (), .ok (), .ok (.other "x")⟩

/-- World where every document succeeds. -/
def demoWorldOk : World := ⟨demoFS, .ok (), fun _ => okOracle⟩

/-- World where extraction fails on `./pdf/a.pdf` only. -/
def demoWorldFail : World :=
  ⟨demoFS, .ok (), fun p => if p = "./pdf/a.pdf" then extractFailOracle else okOracle⟩

/-- World where the embedding-model load fails on `./pdf/a.pdf` only. -/
def demoWorldEmbed : World :=
  ⟨demoFS, .ok (), fun p => if p = "./pdf/a.pdf" then embedFailOracle else okOracle⟩

/-- World where extraction yields no chunks on `./pdf/a.pdf` only. -/
def demoWorldSkip : World :=
  ⟨demoFS, .ok (), fun p => if p = "./pdf/a.pdf" then emptyExtractOracle else okOracle⟩

/-- World whose directory holds no PDFs. -/
def demoWorldNoPdfs : World := ⟨emptyFS, .ok (), fun _ => okOracle⟩

/-- The configuration parsed from `demoEnv` with no flags. -/
def demoArgs : Args :=
  ⟨some "/model.gguf", "./pdf", "BAAI/bge-small-en-v1.5", 4096, some "What is the topic", false⟩

/-- The configuration parsed from `badEnv` with no flags. -/
def badArgs : Args := ⟨none, "./pdf", "BAAI/bge-small-en-v1.5", 4096, none, false⟩

/-- The configuration parsed from `zeroCtxEnv` with no flags. -/
def zeroArgs : Args :=
  ⟨some "/model.gguf", "./pdf", "BAAI/bge-small-en-v1.5", 0, some "What is the topic", false⟩

/-! ## The processing loop -/

theorem main_run_nonempty {env : Env} {cli : Cli} {w : World} {args : Args}
    (hp : parse_args env cli = .ok args)
    (hv : validate_inputs w.fs args.model_path args.pdf_dir args.question = none)
    (hg : w.genLoad = .ok ())
    (hne : discoverPdfs w.fs args.pdf_dir ≠ []) :
    main env cli w =
      ⟨Event.loadGenModel args.n_ctx ::
        (discoverPdfs w.fs args.pdf_dir).flatMap (fun p => run_rag_over_pdf p (w.oracle p)),
        .code 0⟩ := by
  rw [main_run hp hv hg, if_neg]
  simp [hne]

theorem main_run_empty {env : Env} {cli : Cli} {w : World} {args : Args}
    (hp : parse_args env cli = .ok args)
    (hv : validate_inputs w.fs args.model_path args.pdf_dir args.question = none)
    (hg : w.genLoad = .ok ())
    (he : discoverPdfs w.fs args.pdf_dir = []) :
    main env cli w =
      ⟨[Event.loadGenModel args.n_ctx, Event.printLine (noPdfsLine args.pdf_dir)], .code 0⟩ := by
  rw [main_run hp hv hg, if_pos]
  simp [he]

/-- A document failure caught by the per-document boundary: one failure
line inside that document's block, the whole loop still runs, exit 0. -/
theorem main_doc_failure {env : Env} {cli : Cli} {w : World} {args : Args} {p : String}
    {e : PyErr}
    (hp : parse_args env cli = .ok args)
    (hv : validate_inputs w.fs args.model_path args.pdf_dir args.question = none)
    (hg : w.genLoad = .ok ())
    (hmem : p ∈ discoverPdfs w.fs args.pdf_dir)
    (herr : (ragTry (w.oracle p)).2 = some e) :
    (main env cli w).exit = .code 0 ∧
      List.count (Event.printLine (failLine p e)) (run_rag_over_pdf p (w.oracle p)) = 1 ∧
      (∃ pre post, (main env cli w).events =
        pre ++ run_rag_over_pdf p (w.oracle p) ++ post) ∧
      ∀ q ∈ discoverPdfs w.fs args.pdf_dir,
        Event.printHeader q ∈ (main env cli w).events := by
  have hne : discoverPdfs w.fs args.pdf_dir ≠ [] := List.ne_nil_of_mem hmem
  rw [main_run_nonempty hp hv hg hne]
  refine ⟨rfl, run_rag_count_fail p herr, ?_, ?_⟩
  · rcases List.append_of_mem hmem with ⟨l1, l2, hsplit⟩
    refine ⟨Event.loadGenModel args.n_ctx ::
      l1.flatMap (fun q => run_rag_over_pdf q (w.oracle q)),
      l2.flatMap (fun q => run_rag_over_pdf q (w.oracle q)), ?_⟩
    rw [hsplit]
    simp
  · intro q hq
    exact List.mem_cons_of_mem _ (header_mem_loop hq)

/-! ## Claims -/

/-- C1: per-document failure isolation. For every discovered PDF whose
per-document step raises (at extraction, embedding, indexing, retrieval or
generation), the exception is caught inside that step: exactly one
`Failed to process <path>: <error>` line is printed within that document's
block, every discovered file is still processed (its header is printed),
and the process exit status is 0. -/
theorem claim_C1 (env : Env) (cli : Cli) (w : World) (args : Args) (p : String) (e : PyErr)
    (hp : parse_args env cli = .ok args)
    (hv : validate_inputs w.fs args.model_path args.pdf_dir args.question = none)
    (hg : w.genLoad = .ok ())
    (hmem : p ∈ discoverPdfs w.fs args.pdf_dir)
    (herr : (ragTry (w.oracle p)).2 = some e) :
    (main env cli w).exit = .code 0 ∧
      List.count (Event.printLine (failLine p e)) (run_rag_over_pdf p (w.oracle p)) = 1 ∧
      (∃ pre post, (main env cli w).events =
        pre ++ run_rag_over_pdf p (w.oracle p) ++ post) ∧
      ∀ q ∈ discoverPdfs w.fs args.pdf_dir,
        Event.printHeader q ∈ (main env cli w).events :=
  main_doc_failure hp hv hg hmem herr

theorem claim_C1_witness :
    (main demoEnv emptyCli demoWorldFail).exit = .code 0 ∧
      List.count (Event.printLine (failLine "./pdf/a.pdf" "bad pdf"))
        (run_rag_over_pdf "./pdf/a.pdf" (demoWorldFail.oracle "./pdf/a.pdf")) = 1 ∧
      (∃ pre post, (main demoEnv emptyCli demoWorldFail).events =
        pre ++ run_rag_over_pdf "./pdf/a.pdf" (demoWorldFail.oracle "./pdf/a.pdf") ++ post) ∧
      ∀ q ∈ discoverPdfs demoWorldFail.fs demoArgs.pdf_dir,
        Event.printHeader q ∈ (main demoEnv emptyCli demoWorldFail).events :=
  claim_C1 demoEnv emptyCli demoWorldFail demoArgs "./pdf/a.pdf" "bad pdf"
    (by decide) (by decide) rfl (by decide) (by decide)

/-- C2, counterexample to the claim as stated: in this run the
embedding-model load fails for `./pdf/a.pdf`, yet the subsequent document
`./pdf/b.pdf` is still processed (its header is printed) and the run exits
with status 0 - the failure is not fatal to the run. -/
theorem claim_C2_counterexample :
    demoWorldEmbed.oracle "./pdf/a.pdf" = embedFailOracle ∧
      embedFailOracle.embedLoad = .error "embed load failed" ∧
      (ragTry embedFailOracle).2 = some "embed load failed" ∧
      Event.callEmbedLoad ∈ (ragTry embedFailOracle).1 ∧
      "./pdf/b.pdf" ∈ discoverPdfs demoWorldEmbed.fs "./pdf" ∧
      Event.printHeader "./pdf/b.pdf" ∈ (main demoEnv emptyCli demoWorldEmbed).events ∧
      (main demoEnv emptyCli demoWorldEmbed).exit = .code 0 := by
  decide

/-- C2, amended: an embedding-model load failure is not fatal to the run -
the model is loaded inside the per-document `try`, so the failure is
caught by the per-document handler, one `Failed to process` line is
printed for that document, every discovered document is still processed,
and the run exits with status 0. -/
theorem claim_C2 (env : Env) (cli : Cli) (w : World) (args : Args) (p : String) (e : PyErr)
    (hp : parse_args env cli = .ok args)
    (hv : validate_inputs w.fs args.model_path args.pdf_dir args.question = none)
    (hg : w.genLoad = .ok ())
    (hmem : p ∈ discoverPdfs w.fs args.pdf_dir)
    (hchunks : ∃ chunks, (w.oracle p).extract = .ok chunks ∧ chunks.isEmpty = false)
    (hembed : (w.oracle p).embedLoad = .error e) :
    (main env cli w).exit = .code 0 ∧
      List.count (Event.printLine (failLine p e)) (run_rag_over_pdf p (w.oracle p)) = 1 ∧
      ∀ q ∈ discoverPdfs w.fs args.pdf_dir,
        Event.printHeader q ∈ (main env cli w).events := by
  rcases hchunks with ⟨chunks, hex, hne⟩
  have herr : (ragTry (w.oracle p)).2 = some e := by
    simp [ragTry, hex, hne, hembed]
  rcases main_doc_failure hp hv hg hmem herr with ⟨h1, h2, _, h4⟩
  exact ⟨h1, h2, h4⟩

theorem claim_C2_witness :
    (main demoEnv emptyCli demoWorldEmbed).exit = .code 0 ∧
      List.count (Event.printLine (failLine "./pdf/a.pdf" "embed load failed"))
        (run_rag_over_pdf "./pdf/a.pdf" (demoWorldEmbed.oracle "./pdf/a.pdf")) = 1 ∧
      ∀ q ∈ discoverPdfs demoWorldEmbed.fs demoArgs.pdf_dir,
        Event.printHeader q ∈ (main demoEnv emptyCli demoWorldEmbed).events :=
  claim_C2 demoEnv emptyCli demoWorldEmbed demoArgs "./pdf/a.pdf" "embed load failed"
    (by decide) (by decide) rfl (by decide) ⟨["c"], by decide, by decide⟩ (by decide)

/-- C3, counterexample to the claim as stated: with an empty PDF
directory the process does print the notice and exit 0, but it has
already loaded the generation model before the emptiness check, so "no
model loads" is false. -/
theorem claim_C3_counterexample :
    discoverPdfs demoWorldNoPdfs.fs "./pdf" = [] ∧
      main demoEnv emptyCli demoWorldNoPdfs =
        ⟨[Event.loadGenModel 4096, Event.printLine (noPdfsLine "./pdf")], .code 0⟩ ∧
      Event.loadGenModel 4096 ∈ (main demoEnv emptyCli demoWorldNoPdfs).events := by
  decide

/-- C3, amended: when discovery finds no PDF, the process prints the
`No PDFs found` notice and exits with status 0, processing no document and
never invoking the embedding step - but the generation model has already
been loaded before the check (the load is not skipped). -/
theorem claim_C3 (env : Env) (cli : Cli) (w : World) (args : Args)
    (hp : parse_args env cli = .ok args)
    (hv : validate_inputs w.fs args.model_path args.pdf_dir args.question = none)
    (hg : w.genLoad = .ok ())
    (he : discoverPdfs w.fs args.pdf_dir = []) :
    main env cli w =
      ⟨[Event.loadGenModel args.n_ctx, Event.printLine (noPdfsLine args.pdf_dir)], .code 0⟩ ∧
      Event.loadGenModel args.n_ctx ∈ (main env cli w).events ∧
      (∀ q, Event.printHeader q ∉ (main env cli w).events) ∧
      Event.callEmbedLoad ∉ (main env cli w).events := by
  have hm := main_run_empty hp hv hg he
  rw [hm]
  refine ⟨rfl, by simp, ?_, by simp⟩
  intro q
  simp

theorem claim_C3_witness :
    main demoEnv emptyCli demoWorldNoPdfs =
      ⟨[Event.loadGenModel demoArgs.n_ctx, Event.printLine (noPdfsLine demoArgs.pdf_dir)],
        .code 0⟩ ∧
      Event.loadGenModel demoArgs.n_ctx ∈ (main demoEnv emptyCli demoWorldNoPdfs).events ∧
      (∀ q, Event.printHeader q ∉ (main demoEnv emptyCli demoWorldNoPdfs).events) ∧
      Event.callEmbedLoad ∉ (main demoEnv emptyCli demoWorldNoPdfs).events :=
  claim_C3 demoEnv emptyCli demoWorldNoPdfs demoArgs (by decide) (by decide) rfl (by decide)

/-- C4: configuration validation fails fast. Whenever the parsed
configuration has a falsy model path, a non-absolute or non-existent model
path, a missing PDF directory, or a falsy question, the process prints a
single `ERROR:`-prefixed line and exits with status 2, before any model
load or document processing. -/
theorem claim_C4 (env : Env) (cli : Cli) (w : World) (args : Args)
    (hp : parse_args env cli = .ok args)
    (hbad : falsyStr args.model_path = true ∨ isAbsPath (args.model_path.getD "") = false ∨
      w.fs.pathExists (args.model_path.getD "") = false ∨ w.fs.isdir args.pdf_dir = false ∨
      falsyStr args.question = true) :
    ∃ line, main env cli w = ⟨[Event.printLine line], .code 2⟩ ∧ errorPrefixed line ∧
      (∀ q, Event.printHeader q ∉ (main env cli w).events) ∧
      ∀ n, Event.loadGenModel n ∉ (main env cli w).events := by
  cases hval : validate_inputs w.fs args.model_path args.pdf_dir args.question with
  | none =>
    rcases (validate_inputs_none_iff _ _ _ _).mp hval with ⟨h1, h2, h3, h4, h5⟩
    rcases hbad with hb | hb | hb | hb | hb <;> simp_all
  | some line =>
    have hm := main_validate_some hp hval
    refine ⟨line, hm, validate_inputs_error hval, ?_, ?_⟩
    · intro q; rw [hm]; simp
    · intro n; rw [hm]; simp

theorem claim_C4_witness :
    ∃ line, main badEnv emptyCli demoWorldOk = ⟨[Event.printLine line], .code 2⟩ ∧
      errorPrefixed line ∧
      (∀ q, Event.printHeader q ∉ (main badEnv emptyCli demoWorldOk).events) ∧
      ∀ n, Event.loadGenModel n ∉ (main badEnv emptyCli demoWorldOk).events :=
  claim_C4 badEnv emptyCli demoWorldOk badArgs (by decide) (Or.inl (by decide))

/-- C5: document discovery. The discovered list contains exactly the
files, anywhere under the walked tree, whose name case-insensitively ends
in `.pdf` (joined to their directory); it is sorted in the lexicographic
string order; and the run prints exactly one `Processing File:` header per
discovered path, in that order and no other. -/
theorem claim_C5 (env : Env) (cli : Cli) (w : World) (args : Args)
    (hp : parse_args env cli = .ok args)
    (hv : validate_inputs w.fs args.model_path args.pdf_dir args.question = none)
    (hg : w.genLoad = .ok ()) :
    (∀ p, p ∈ discoverPdfs w.fs args.pdf_dir ↔
      ∃ d ns, (d, ns) ∈ w.fs.walk args.pdf_dir ∧
        ∃ n, n ∈ ns ∧ isPdfName n = true ∧ p = pathJoin d n) ∧
      List.Pairwise (fun a b => strLe a b = true) (discoverPdfs w.fs args.pdf_dir) ∧
      (main env cli w).events.filterMap headerPath = discoverPdfs w.fs args.pdf_dir := by
  refine ⟨fun p => mem_discoverPdfs, discoverPdfs_sorted _ _, ?_⟩
  by_cases he : discoverPdfs w.fs args.pdf_dir = []
  · rw [main_run_empty hp hv hg he, he]
    rfl
  · rw [main_run_nonempty hp hv hg he]
    show List.filterMap headerPath (Event.loadGenModel args.n_ctx :: _) = _
    rw [List.filterMap_cons]
    simpa [headerPath] using loop_filterMap_header w (discoverPdfs w.fs args.pdf_dir)

theorem claim_C5_witness :
    (∀ p, p ∈ discoverPdfs demoWorldOk.fs demoArgs.pdf_dir ↔
      ∃ d ns, (d, ns) ∈ demoWorldOk.fs.walk demoArgs.pdf_dir ∧
        ∃ n, n ∈ ns ∧ isPdfName n = true ∧ p = pathJoin d n) ∧
      List.Pairwise (fun a b => strLe a b = true) (discoverPdfs demoWorldOk.fs demoArgs.pdf_dir) ∧
      (main demoEnv emptyCli demoWorldOk).events.filterMap headerPath =
        discoverPdfs demoWorldOk.fs demoArgs.pdf_dir :=
  claim_C5 demoEnv emptyCli demoWorldOk demoArgs (by decide) (by decide) rfl

/-- C7: empty-extraction skip. For every discovered document whose
extraction yields an empty chunk sequence, the document block is exactly
the header, the extraction call and the skip notice; the embedding step is
never invoked for it; no exception escapes the try body; and the run goes
on to print every discovered header and exit with status 0. -/
theorem claim_C7 (env : Env) (cli : Cli) (w : World) (args : Args) (p : String)
    (hp : parse_args env cli = .ok args)
    (hv : validate_inputs w.fs args.model_path args.pdf_dir args.question = none)
    (hg : w.genLoad = .ok ())
    (hmem : p ∈ discoverPdfs w.fs args.pdf_dir)
    (hext : (w.oracle p).extract = .ok []) :
    run_rag_over_pdf p (w.oracle p) =
      [Event.printHeader p, Event.callExtract,
        Event.printLine "No text extracted; skipping."] ∧
      Event.callEmbedLoad ∉ run_rag_over_pdf p (w.oracle p) ∧
      (ragTry (w.oracle p)).2 = none ∧
      (main env cli w).exit = .code 0 ∧
      ∀ q ∈ discoverPdfs w.fs args.pdf_dir,
        Event.printHeader q ∈ (main env cli w).events := by
  have hne : discoverPdfs w.fs args.pdf_dir ≠ [] := List.ne_nil_of_mem hmem
  have hrt : ragTry (w.oracle p) =
      ([.callExtract, .printLine "No text extracted; skipping."], none) := by
    simp [ragTry, hext]
  refine ⟨?_, ?_, by rw [hrt], ?_, ?_⟩
  · unfold run_rag_over_pdf
    rw [hrt]
    rfl
  · unfold run_rag_over_pdf
    rw [hrt]
    simp
  · rw [main_run_nonempty hp hv hg hne]
  · intro q hq
    rw [main_run_nonempty hp hv hg hne]
    exact List.mem_cons_of_mem _ (header_mem_loop hq)

theorem claim_C7_witness :
    run_rag_over_pdf "./pdf/a.pdf" (demoWorldSkip.oracle "./pdf/a.pdf") =
      [Event.printHeader "./pdf/a.pdf", Event.callExtract,
        Event.printLine "No text extracted; skipping."] ∧
      Event.callEmbedLoad ∉ run_rag_over_pdf "./pdf/a.pdf" (demoWorldSkip.oracle "./pdf/a.pdf") ∧
      (ragTry (demoWorldSkip.oracle "./pdf/a.pdf")).2 = none ∧
      (main demoEnv emptyCli demoWorldSkip).exit = .code 0 ∧
      ∀ q ∈ discoverPdfs demoWorldSkip.fs demoArgs.pdf_dir,
        Event.printHeader q ∈ (main demoEnv emptyCli demoWorldSkip).events :=
  claim_C7 demoEnv emptyCli demoWorldSkip demoArgs "./pdf/a.pdf"
    (by decide) (by decide) rfl (by decide) (by decide)

/-- C8: the generation model is loaded exactly once per run, before the
per-document loop. In every run that passes validation, the very first
event is the one generation-model load, no load event occurs anywhere
later, and (when the load succeeds) every document is processed after
it. -/
theorem claim_C8 (env : Env) (cli : Cli) (w : World) (args : Args)
    (hp : parse_args env cli = .ok args)
    (hv : validate_inputs w.fs args.model_path args.pdf_dir args.question = none) :
    ∃ rest, (main env cli w).events = Event.loadGenModel args.n_ctx :: rest ∧
      (∀ n, Event.loadGenModel n ∉ rest) ∧
      (w.genLoad = .ok () → ∀ q ∈ discoverPdfs w.fs args.pdf_dir,
        Event.printHeader q ∈ rest) := by
  cases hg : w.genLoad with
  | error e =>
    refine ⟨[], by rw [main_genLoad_error hp hv hg], by simp, ?_⟩
    intro hok
    exact absurd hok (by simp)
  | ok u =>
    cases u
    by_cases he : discoverPdfs w.fs args.pdf_dir = []
    · refine ⟨[Event.printLine (noPdfsLine args.pdf_dir)],
        by rw [main_run_empty hp hv hg he], by simp, ?_⟩
      intro _ q hq
      rw [he] at hq
      cases hq
    · refine ⟨(discoverPdfs w.fs args.pdf_dir).flatMap
        (fun p => run_rag_over_pdf p (w.oracle p)),
        by rw [main_run_nonempty hp hv hg he], fun n => loop_no_loadGen w _ n, ?_⟩
      intro _ q hq
      exact header_mem_loop hq

theorem claim_C8_witness :
    ∃ rest, (main demoEnv emptyCli demoWorldOk).events =
      Event.loadGenModel demoArgs.n_ctx :: rest ∧
      (∀ n, Event.loadGenModel n ∉ rest) ∧
      (demoWorldOk.genLoad = .ok () → ∀ q ∈ discoverPdfs demoWorldOk.fs demoArgs.pdf_dir,
        Event.printHeader q ∈ rest) :=
  claim_C8 demoEnv emptyCli demoWorldOk demoArgs (by decide) (by decide)

/-- C9, counterexample to the claim as stated: with `N_CTX=0` the run
parses a context size of 0, passes validation unchanged, and proceeds into
document processing (the generation model is loaded with 0 and a document
header is printed), so the context size used is not a positive integer. -/
theorem claim_C9_counterexample :
    parse_args zeroCtxEnv emptyCli = .ok zeroArgs ∧ zeroArgs.n_ctx = 0 ∧
      ¬(0 < zeroArgs.n_ctx) ∧
      validate_inputs demoWorldOk.fs zeroArgs.model_path zeroArgs.pdf_dir
        zeroArgs.question = none ∧
      Event.loadGenModel 0 ∈ (main zeroCtxEnv emptyCli demoWorldOk).events ∧
      Event.printHeader "./pdf/a.pdf" ∈ (main zeroCtxEnv emptyCli demoWorldOk).events := by
  decide

/-- C9, amended: the context-window size used past validation is exactly
the parsed integer, with no positivity constraint - any integer value of
`--n-ctx`, zero or negative included, passes validation unchanged and is
the size handed to the generation-model load. -/
theorem claim_C9 (env : Env) (cli : Cli) (w : World) (args : Args) (v : Int)
    (hcli : cli.n_ctx = some v)
    (hp : parse_args env cli = .ok args)
    (hv : validate_inputs w.fs args.model_path args.pdf_dir args.question = none)
    (hg : w.genLoad = .ok ()) :
    args.n_ctx = v ∧
      (main env cli w).events.head? = some (Event.loadGenModel v) ∧
      (main env cli w).exit = .code 0 := by
  have hn : args.n_ctx = v := by
    unfold parse_args at hp
    cases hpi : pyInt (env.N_CTX.getD "4096") with
    | error e => rw [hpi] at hp; exact Except.noConfusion hp
    | ok d =>
      rw [hpi] at hp
      injection hp with h
      subst h
      simp [hcli]
  refine ⟨hn, ?_, ?_⟩
  · by_cases he : discoverPdfs w.fs args.pdf_dir = []
    · rw [main_run_empty hp hv hg he, hn]
      rfl
    · rw [main_run_nonempty hp hv hg he, hn]
      rfl
  · by_cases he : discoverPdfs w.fs args.pdf_dir = []
    · rw [main_run_empty hp hv hg he]
    · rw [main_run_nonempty hp hv hg he]

theorem claim_C9_witness :
    (⟨some "/model.gguf", "./pdf", "BAAI/bge-small-en-v1.5", -7,
        some "What is the topic", false⟩ : Args).n_ctx = -7 ∧
      (main demoEnv negCtxCli demoWorldOk).events.head? =
        some (Event.loadGenModel (-7)) ∧
      (main demoEnv negCtxCli demoWorldOk).exit = .code 0 :=
  claim_C9 demoEnv negCtxCli demoWorldOk
    ⟨some "/model.gguf", "./pdf", "BAAI/bge-small-en-v1.5", -7, some "What is the topic", false⟩
    (-7) rfl (by decide) (by decide) rfl

/-- C10: an invalid `N_CTX` environment value raises inside the eager
`int(...)` default while the parser is being built, before any validation:
the process terminates with an uncaught exception, prints no line at all
(in particular no `ERROR:` line), and its exit outcome is not
`sys.exit(2)`. -/
theorem claim_C10 (env : Env) (cli : Cli) (w : World) (s : String)
    (hs : env.N_CTX = some s)
    (hbad : (pyInt s).isOk = false) :
    ∃ e, main env cli w = ⟨[], .uncaught e⟩ ∧
      (main env cli w).exit ≠ .code 2 ∧
      ∀ l, Event.printLine l ∉ (main env cli w).events := by
  have hpe : ∃ e, pyInt s = .error e := by
    cases hpi : pyInt s with
    | ok n => rw [hpi] at hbad; simp [Except.isOk, Except.toBool] at hbad
    | error e => exact ⟨e, rfl⟩
  rcases hpe with ⟨e, he⟩
  have hparse : parse_args env cli = .error e := by
    unfold parse_args
    rw [hs]
    simp only [Option.getD]
    rw [he]
  have hm := main_parse_error (w := w) hparse
  refine ⟨e, hm, ?_, ?_⟩
  · rw [hm]; simp
  · intro l; rw [hm]; simp

theorem claim_C10_witness :
    ∃ e, main badCtxEnv emptyCli demoWorldOk = ⟨[], .uncaught e⟩ ∧
      (main badCtxEnv emptyCli demoWorldOk).exit ≠ .code 2 ∧
      ∀ l, Event.printLine l ∉ (main badCtxEnv emptyCli demoWorldOk).events :=
  claim_C10 badCtxEnv emptyCli demoWorldOk "not a number" rfl (by decide)

/-! ## Chunking lemmas -/

theorem charCuts_of_short {size overlap : Nat} {cs : List Char} (h : cs.length ≤ size) :
    charCuts size overlap cs = [cs] := by
  unfold charCuts
  cases hl : cs.length with
  | zero => rfl
  | succ n =>
    unfold charCutsFuel
    rw [if_pos]
    right; right
    omega

theorem splitBoundary_fallback (size overlap : Nat) :
    ∀ (seps : List String) (s : String),
      (∀ sep ∈ seps, (splitOnSep sep s).length ≤ 1) →
      splitBoundary size overlap seps s = (charCuts size overlap s.data).map List.asString
  | [], _, _ => rfl
  | sep :: rest, s, h => by
    by_cases hshort : s.data.length ≤ size
    · unfold splitBoundary
      rw [if_pos hshort, charCuts_of_short hshort]
      rfl
    · have h1 : (splitOnSep sep s).length ≤ 1 := h sep (List.mem_cons_self _ _)
      unfold splitBoundary
      rw [if_neg hshort]
      simp only [h1, if_pos]
      exact splitBoundary_fallback size overlap rest s
        (fun sp hsp => h sp (List.mem_cons_of_mem _ hsp))

theorem charCutsFuel_length_le {size overlap : Nat} (hs : 0 < size) (ho : overlap < size) :
    ∀ (fuel : Nat) (cs : List Char), cs.length ≤ fuel →
      ∀ c ∈ charCutsFuel size overlap fuel cs, c.length ≤ size
  | 0, cs, hlen => by
    intro c hc
    simp [charCutsFuel] at hc
    subst hc
    omega
  | fuel + 1, cs, hlen => by
    intro c hc
    unfold charCutsFuel at hc
    split at hc
    case isTrue h =>
      simp at hc
      subst hc
      rcases h with h | h | h <;> omega
    case isFalse h =>
      push_neg at h
      obtain ⟨h1, h2, h3⟩ := h
      rcases List.mem_cons.mp hc with rfl | hc2
      · simp [List.length_take]
      · have hlen2 : (cs.drop (size - overlap)).length ≤ fuel := by
          simp [List.length_drop]
          omega
        exact charCutsFuel_length_le hs ho fuel _ hlen2 c hc2

theorem charCuts_length_le {size overlap : Nat} (hs : 0 < size) (ho : overlap < size)
    (cs : List Char) : ∀ c ∈ charCuts size overlap cs, c.length ≤ size :=
  charCutsFuel_length_le hs ho cs.length cs le_rfl

theorem charCutsFuel_head_take {size overlap : Nat} (ho : overlap ≤ size)
    (fuel : Nat) (cs : List Char) :
    ∀ h ∈ (charCutsFuel size overlap fuel cs).head?, h.take overlap = cs.take overlap := by
  intro h hh
  cases fuel with
  | zero =>
    simp [charCutsFuel] at hh
    subst hh
    rfl
  | succ f =>
    unfold charCutsFuel at hh
    split at hh
    · simp at hh
      subst hh
      rfl
    · simp at hh
      subst hh
      rw [List.take_take]
      have hmin : overlap ⊓ size = overlap := inf_eq_left.mpr ho
      rw [hmin]

theorem charCutsFuel_chain {size overlap : Nat} (hs : 0 < size) (ho : overlap < size) :
    ∀ (fuel : Nat) (cs : List Char), cs.length ≤ fuel →
      List.Chain' (fun c1 c2 => c1.drop (size - overlap) = c2.take overlap)
        (charCutsFuel size overlap fuel cs)
  | 0, cs, hlen => by simp [charCutsFuel]
  | fuel + 1, cs, hlen => by
    unfold charCutsFuel
    split
    · simp
    case isFalse h =>
      push_neg at h
      obtain ⟨h1, h2, h3⟩ := h
      rw [List.chain'_cons']
      constructor
      · intro y hy
        rw [charCutsFuel_head_take (le_of_lt ho) fuel (cs.drop (size - overlap)) y hy,
          List.drop_take]
        congr 1
        omega
      · have hlen2 : (cs.drop (size - overlap)).length ≤ fuel := by
          simp [List.length_drop]
          omega
        exact charCutsFuel_chain hs ho fuel _ hlen2

theorem charCuts_chain {size overlap : Nat} (hs : 0 < size) (ho : overlap < size)
    (cs : List Char) :
    List.Chain' (fun c1 c2 => c1.drop (size - overlap) = c2.take overlap)
      (charCuts size overlap cs) :=
  charCutsFuel_chain hs ho cs.length cs le_rfl

/-- C6: chunking policy. Every page-level segment is split by the
recursive splitter with target chunk length 500 and overlap 200, chunks
being concatenated over the pages in order; when no boundary separator
occurs in a segment the splitter falls back to raw character cuts; every
raw cut is at most 500 characters long; and consecutive raw cuts overlap
in exactly 200 characters (the last 200 characters of one cut are the
first 200 of the next). -/
theorem claim_C6 (pages : List String) :
    extract_text_chunks_from_pdf pages =
      pages.flatMap (splitBoundary 500 200 boundarySeparators) ∧
      (∀ s, (∀ sep ∈ boundarySeparators, (splitOnSep sep s).length ≤ 1) →
        splitBoundary 500 200 boundarySeparators s =
          (charCuts 500 200 s.data).map List.asString) ∧
      (∀ cs, ∀ c ∈ charCuts 500 200 cs, c.length ≤ 500) ∧
      ∀ cs, List.Chain' (fun c1 c2 => c1.drop 300 = c2.take 200) (charCuts 500 200 cs) := by
  refine ⟨rfl, ?_, ?_, ?_⟩
  · intro s hs
    exact splitBoundary_fallback 500 200 boundarySeparators s hs
  · intro cs
    exact charCuts_length_le (by omega) (by omega) cs
  · intro cs
    simpa using @charCuts_chain 500 200 (by omega) (by omega) cs

theorem claim_C6_witness :
    extract_text_chunks_from_pdf ["alpha beta"] = ["alpha beta"] := by
  have h := (claim_C6 ["alpha beta"]).1
  rw [h]
  decide

end RAG
